import Mathlib

/-! The `debug.h` logging facility.

A shallow embedding of `src/debug.h`: the compile-time level gate (the
`#if DEBUG_LEVEL >= k` blocks that define the `LOG_*` entry points) and the
`DebugLogger` line writer (`getCurrentTime`, `printLine`, `logError` ..
`logTrace`, `logHex`, `logErrorF` .. `logTraceF`), and the properties of both.

Modelling conventions.

* Text is a list of code units (`Str`); one `Char` stands for one C++ `char`.
  The code unit `'\x00'` is the C string terminator.
* The sink (`std::cout` or `Serial`) is the sequence of code units written to
  it so far; every operation maps the old sink contents to the new ones.
* Streams are in the classic locale, and `std::cout` is in its start-up
  formatting state (decimal, width 0).
* The platform clock is an input (`Clock`): the value `millis()` returns, the
  number of milliseconds since the epoch, and the fields `localtime` fills in.
* `snprintf` expands a format template with libc; the expanded text `e` (what
  the template and its arguments produce with unlimited room) is an input, and
  the bounded write into `char buffer[256]` is modelled.
* A `const uint8_t*` argument is `none` for the null pointer and otherwise the
  bytes read at offsets `0, 1, 2, ..` from it.
* The preprocessor threshold `DEBUG_LEVEL` is an integer written in decimal;
  the `#if` blocks evaluate it in 64-bit arithmetic (`ppThreshold`), which
  gives the integer itself exactly when it lies strictly between -2^63 and
  2^64. An argument expression of a call site is a computation on the program
  state (the caller's memory and the sink), so that dropping it (the
  `((void)0)` expansion) is visible.
-/

namespace DebugLog

/-! ## Text and C strings -/

/-- A sequence of `char` code units (`std::string` contents). -/
abbrev Str := List Char

/-- The C string terminator. -/
def NUL : Char := Char.ofNat 0

/-- What reading a `const char*` yields (`Serial.print(const char*)`,
`std::string(const char*)`, `operator<<(const char*)`): the code units before
the first terminator. -/
def cstr (s : Str) : Str := s.takeWhile (fun ch => ch != NUL)

/-- The contents `snprintf(buf, size, ...)` leaves in `buf` when the template
expands to `e`: at most `size - 1` code units of `e`, then the terminator.
With `size = 0` nothing is written. -/
def snprintf (size : Nat) (e : Str) : Str :=
  if size = 0 then [] else e.take (size - 1) ++ [NUL]

/-! ## Output stream formatting state (`std::stringstream`) -/

/-- The part of a `std::stringstream` the logger uses: the characters written,
the base flag (`std::hex`), the pending field width (`std::setw`) and the fill
character (`std::setfill`). -/
structure OStream where
  buf : Str
  hex : Bool
  width : Nat
  fill : Char

/-- A freshly constructed stream: empty, decimal, width 0, fill `' '`. -/
def OStream.init : OStream := { buf := [], hex := false, width := 0, fill := ' ' }

/-- Right-adjusted padding (the default `adjustfield`): fill characters go in
front of the text until it is `w` wide. -/
def padLeft (w : Nat) (fill : Char) (s : Str) : Str :=
  List.replicate (w - s.length) fill ++ s

/-- Manipulator `std::setw(w)`. -/
def OStream.setw (ss : OStream) (w : Nat) : OStream := { ss with width := w }

/-- Manipulator `std::setfill(ch)`. -/
def OStream.setfill (ss : OStream) (ch : Char) : OStream := { ss with fill := ch }

/-- Manipulator `std::hex`. -/
def OStream.setHex (ss : OStream) : OStream := { ss with hex := true }

/-- Insertion of a string or character sequence; a formatted output, so it is
padded to the pending width, which is then reset to 0. -/
def OStream.putStr (ss : OStream) (s : Str) : OStream :=
  { ss with buf := ss.buf ++ padLeft ss.width ss.fill s, width := 0 }

/-- Digits of an unsigned value in the stream's base (lowercase in base 16). -/
def unsignedText (hex : Bool) (v : Nat) : Str :=
  if hex then Nat.toDigits 16 v else Nat.toDigits 10 v

/-- Text of a signed value of `bits` bits: in base 16 the two's complement bit
pattern, in base 10 a minus sign when negative and the magnitude. -/
def signedText (hex : Bool) (bits : Nat) (v : Int) : Str :=
  if hex then Nat.toDigits 16 (v % 2 ^ bits).toNat
  else if v < 0 then '-' :: Nat.toDigits 10 v.natAbs
  else Nat.toDigits 10 v.toNat

/-- Insertion of an unsigned integer (`size_t`). -/
def OStream.putUnsigned (ss : OStream) (v : Nat) : OStream :=
  { ss with buf := ss.buf ++ padLeft ss.width ss.fill (unsignedText ss.hex v), width := 0 }

/-- Insertion of a signed integer of `bits` bits (`int`, `long long`). -/
def OStream.putSigned (ss : OStream) (bits : Nat) (v : Int) : OStream :=
  { ss with buf := ss.buf ++ padLeft ss.width ss.fill (signedText ss.hex bits v), width := 0 }

/-! ## Platform -/

/-- The sink variant, chosen by `#if defined(ARDUINO)`. -/
inductive Target where
  | arduino
  | host
  deriving DecidableEq

/-- What the platform clock answers at the moment of a call. -/
structure Clock where
  /-- The value of `millis()` (embedded target). -/
  millis : Nat
  /-- The count of `duration_cast<milliseconds>(now.time_since_epoch())`. -/
  epochMillis : Int
  /-- The field `tm_hour` of `localtime(&time_t)`. -/
  tm_hour : Nat
  /-- The field `tm_min` of `localtime(&time_t)`. -/
  tm_min : Nat
  /-- The field `tm_sec` of `localtime(&time_t)`. -/
  tm_sec : Nat

/-- A two-digit `strftime` field (`%H`, `%M`, `%S`): decimal, zero-padded. -/
def strftime2 (v : Nat) : Str := padLeft 2 '0' (Nat.toDigits 10 v)

/-- Insertion of `std::put_time(tm, "%H:%M:%S")`. -/
def OStream.putTime (ss : OStream) (c : Clock) : OStream :=
  { ss with buf := ss.buf ++ strftime2 c.tm_hour ++ ":".toList ++ strftime2 c.tm_min
                    ++ ":".toList ++ strftime2 c.tm_sec }

/-- The line terminator: `Serial.println` ends a line with CR LF, `std::endl`
with LF. -/
def eol : Target → Str
  | .arduino => "\r\n".toList
  | .host => "\n".toList

/-! ## `DebugLogger` (debug.h 31-116) -/

/-- Source `DebugLogger::getCurrentTime` (debug.h 33-49). -/
def getCurrentTime (t : Target) (c : Clock) : Str :=
  match t with
  | .arduino =>
      -- char buf[16]; snprintf(buf, sizeof(buf), "%lu ms", (unsigned long)millis());
      cstr (snprintf 16 (Nat.toDigits 10 (c.millis % 2 ^ 32) ++ " ms".toList))
  | .host =>
      let ms : Int := c.epochMillis.tmod 1000
      let ss := OStream.init.putTime c
      let ss := (((ss.putStr ".".toList).setfill '0').setw 3).putSigned 64 ms
      ss.buf

/-- Source `DebugLogger::printLine` (debug.h 51-62): the sink after the call. -/
def printLine (t : Target) (c : Clock) (level : Str) (msg : Str) (sink : Str) : Str :=
  match t with
  | .arduino =>
      sink ++ "[".toList ++ cstr (getCurrentTime .arduino c) ++ "] ".toList ++ cstr level
        ++ " ".toList ++ cstr msg ++ eol .arduino
  | .host =>
      sink ++ getCurrentTime .host c ++ " ".toList ++ cstr level ++ " ".toList ++ msg
        ++ eol .host

/-- Source `DebugLogger::logError` (debug.h 65). -/
def logError (t : Target) (c : Clock) (msg : Str) (sink : Str) : Str :=
  printLine t c "[ERROR]".toList msg sink

/-- Source `DebugLogger::logWarn` (debug.h 66). -/
def logWarn (t : Target) (c : Clock) (msg : Str) (sink : Str) : Str :=
  printLine t c "[WARN ]".toList msg sink

/-- Source `DebugLogger::logInfo` (debug.h 67). -/
def logInfo (t : Target) (c : Clock) (msg : Str) (sink : Str) : Str :=
  printLine t c "[INFO ]".toList msg sink

/-- Source `DebugLogger::logDebug` (debug.h 68). -/
def logDebug (t : Target) (c : Clock) (msg : Str) (sink : Str) : Str :=
  printLine t c "[DEBUG]".toList msg sink

/-- Source `DebugLogger::logTrace` (debug.h 69). -/
def logTrace (t : Target) (c : Clock) (msg : Str) (sink : Str) : Str :=
  printLine t c "[TRACE]".toList msg sink

/-- A `uint8_t`. -/
abbrev Byte := Fin 256

/-- The `for` loop of `logHex` (debug.h 75-78) with `k` iterations left and
index `i`: each iteration sets base 16, width 2 and fill `'0'`, inserts
`static_cast<int>(data[i])` and then `" "`. -/
def hexLoop (data : Nat → Byte) : Nat → Nat → OStream → OStream
  | 0, _, ss => ss
  | k + 1, i, ss =>
      hexLoop data k (i + 1)
        ((((ss.setHex.setw 2).setfill '0').putSigned 32 ((data i).val : Int)).putStr " ".toList)

/-- The message `logHex` builds in its `std::stringstream` (debug.h 73-78). -/
def hexMessage (pfx : Str) (data : Nat → Byte) (len : Nat) : Str :=
  let ss := (((OStream.init.putStr pfx).putStr " [".toList).putUnsigned len).putStr
    " bytes]: ".toList
  (hexLoop data len 0 ss).buf

/-- Source `DebugLogger::logHex` (debug.h 71-80). -/
def logHex (t : Target) (c : Clock) (pfx : Str) (data : Option (Nat → Byte)) (len : Nat)
    (sink : Str) : Str :=
  match data with
  | none => sink
  | some d => if len = 0 then sink else logDebug t c (hexMessage pfx d len) sink

/-- The number of code units that reading a `const char*` touches: the units
before the first terminator, and that terminator. -/
def cstrReadExtent (s : Str) : Nat := (cstr s).length + 1

/-- The `std::string(buffer)` a formatted variant passes on after
`char buffer[256]; snprintf(buffer, sizeof(buffer), format, args...)`, when the
template expands to `e`. -/
def formatBuffer (e : Str) : Str := cstr (snprintf 256 e)

/-- Source `DebugLogger::logErrorF` (debug.h 82-87). -/
def logErrorF (t : Target) (c : Clock) (e : Str) (sink : Str) : Str :=
  logError t c (formatBuffer e) sink

/-- Source `DebugLogger::logWarnF` (debug.h 89-94). -/
def logWarnF (t : Target) (c : Clock) (e : Str) (sink : Str) : Str :=
  logWarn t c (formatBuffer e) sink

/-- Source `DebugLogger::logInfoF` (debug.h 96-101). -/
def logInfoF (t : Target) (c : Clock) (e : Str) (sink : Str) : Str :=
  logInfo t c (formatBuffer e) sink

/-- Source `DebugLogger::logDebugF` (debug.h 103-108). -/
def logDebugF (t : Target) (c : Clock) (e : Str) (sink : Str) : Str :=
  logDebug t c (formatBuffer e) sink

/-- Source `DebugLogger::logTraceF` (debug.h 110-115). -/
def logTraceF (t : Target) (c : Clock) (e : Str) (sink : Str) : Str :=
  logTrace t c (formatBuffer e) sink

/-! ## The level gate (debug.h 3-12 and 120-164) -/

/-- Source `#define DEBUG_LEVEL_NONE 0`. -/
def DEBUG_LEVEL_NONE : Int := 0
/-- Source `#define DEBUG_LEVEL_ERROR 1`. -/
def DEBUG_LEVEL_ERROR : Int := 1
/-- Source `#define DEBUG_LEVEL_WARN 2`. -/
def DEBUG_LEVEL_WARN : Int := 2
/-- Source `#define DEBUG_LEVEL_INFO 3`. -/
def DEBUG_LEVEL_INFO : Int := 3
/-- Source `#define DEBUG_LEVEL_DEBUG 4`. -/
def DEBUG_LEVEL_DEBUG : Int := 4
/-- Source `#define DEBUG_LEVEL_TRACE 5`. -/
def DEBUG_LEVEL_TRACE : Int := 5

/-- The threshold seen by the `#if` blocks: the build setting when there is
one, and otherwise `#ifndef DEBUG_LEVEL / #define DEBUG_LEVEL 0`. -/
def DEBUG_LEVEL (setting : Option Int) : Int :=
  match setting with
  | some v => v
  | none => 0

/-- The five severities that have entry points. -/
inductive Severity where
  | ERROR
  | WARN
  | INFO
  | DEBUG
  | TRACE
  deriving DecidableEq

/-- The numeric level of a severity (`DEBUG_LEVEL_ERROR` .. `DEBUG_LEVEL_TRACE`). -/
def Severity.level : Severity → Int
  | .ERROR => DEBUG_LEVEL_ERROR
  | .WARN => DEBUG_LEVEL_WARN
  | .INFO => DEBUG_LEVEL_INFO
  | .DEBUG => DEBUG_LEVEL_DEBUG
  | .TRACE => DEBUG_LEVEL_TRACE

/-- The macros defined by the five `#if DEBUG_LEVEL >= k` blocks. -/
inductive EntryPoint where
  | LOG_ERROR
  | LOG_ERROR_F
  | LOG_WARN
  | LOG_WARN_F
  | LOG_INFO
  | LOG_INFO_F
  | LOG_DEBUG
  | LOG_DEBUG_F
  | LOG_HEX
  | DEBUG_ONLY
  | LOG_TRACE
  | LOG_TRACE_F
  | TRACE_ONLY
  deriving DecidableEq

/-- The literal `k` of the `#if DEBUG_LEVEL >= k` block that defines an entry
point (debug.h 120, 128, 136, 144, 156). -/
def EntryPoint.gateLevel : EntryPoint → Nat
  | .LOG_ERROR | .LOG_ERROR_F => 1
  | .LOG_WARN | .LOG_WARN_F => 2
  | .LOG_INFO | .LOG_INFO_F => 3
  | .LOG_DEBUG | .LOG_DEBUG_F | .LOG_HEX | .DEBUG_ONLY => 4
  | .LOG_TRACE | .LOG_TRACE_F | .TRACE_ONLY => 5

/-- A value in a `#if` expression: 64 bits wide, of type `intmax_t` or
`uintmax_t` (`unsignedp`); `value` is the number it stands for, between -2^63
and 2^63 - 1 when signed and between 0 and 2^64 - 1 when unsigned. -/
structure PPNum where
  value : Int
  unsignedp : Bool

/-- A decimal literal `m` in a `#if`, as the GNU preprocessor reads it: below
2^63 it is signed; from 2^63 up to 2^64 - 1 it is "so large that it is
unsigned"; from 2^64 on it is "too large for its type", cut to its low 64 bits,
and those are read as a signed value. -/
def ppLiteral (m : Nat) : PPNum :=
  let r : Nat := m % 2 ^ 64
  if m < 2 ^ 64 then
    { value := Int.ofNat r, unsignedp := decide (2 ^ 63 ≤ r) }
  else
    { value := if r < 2 ^ 63 then Int.ofNat r else Int.ofNat r - 2 ^ 64, unsignedp := false }

/-- Unary minus in a `#if`: modulo 2^64 on an unsigned value; on a signed one
the negation, which wraps for -2^63. -/
def ppNegate (x : PPNum) : PPNum :=
  if x.unsignedp then { value := (2 ^ 64 - x.value) % 2 ^ 64, unsignedp := true }
  else { value := if x.value = -(2 ^ 63) then -(2 ^ 63) else -x.value, unsignedp := false }

/-- The value a `#if` computes for `DEBUG_LEVEL` when the build sets it to the
integer `T`, written in decimal with a minus sign in front when negative. -/
def ppThreshold (T : Int) : PPNum :=
  if T < 0 then ppNegate (ppLiteral T.natAbs) else ppLiteral T.natAbs

/-- The comparison `x >= y` in a `#if`: when either operand is unsigned both
are converted to `uintmax_t` first. -/
def ppGe (x y : PPNum) : Bool :=
  if x.unsignedp || y.unsignedp then decide (x.value % 2 ^ 64 ≥ y.value % 2 ^ 64)
  else decide (x.value ≥ y.value)

/-- The comparison `x > y` in a `#if`, with the same conversion. -/
def ppGt (x y : PPNum) : Bool :=
  if x.unsignedp || y.unsignedp then decide (x.value % 2 ^ 64 > y.value % 2 ^ 64)
  else decide (x.value > y.value)

/-- Which branch of its `#if DEBUG_LEVEL >= k` block defines an entry point
when `DEBUG_LEVEL` is `lvl`: `true` for the branch that calls `DebugLogger`
(or runs the block), `false` for the `((void)0)` branch. -/
def enabled (lvl : Int) (ep : EntryPoint) : Bool :=
  ppGe (ppThreshold lvl) (ppLiteral ep.gateLevel)

/-- Whether `class DebugLogger` is compiled at all (`#if DEBUG_LEVEL > 0`,
debug.h 30). -/
def loggerCompiled (lvl : Int) : Bool := ppGt (ppThreshold lvl) (ppLiteral 0)

/-- The state of the calling program: its own memory and the sink contents. -/
structure Prog (σ : Type) where
  mem : σ
  sink : Str

/-- An argument expression at a call site: evaluating it yields a value and
may change the program state. -/
abbrev ArgExpr (σ α : Type) := Prog σ → α × Prog σ

/-- An argument expression without side effects. -/
def pureArg {σ α : Type} (a : α) : ArgExpr σ α := fun q => (a, q)

/-- Source `LOG_ERROR(msg)` (debug.h 120-126). -/
def LOG_ERROR {σ : Type} (lvl : Int) (t : Target) (c : Clock) (msg : ArgExpr σ Str)
    (p : Prog σ) : Prog σ :=
  if enabled lvl .LOG_ERROR then
    let r := msg p
    { r.2 with sink := logError t c r.1 r.2.sink }
  else p

/-- Source `LOG_ERROR_F(fmt, ...)` (debug.h 120-126); `e` evaluates the arguments and
yields the expansion of the template. -/
def LOG_ERROR_F {σ : Type} (lvl : Int) (t : Target) (c : Clock) (e : ArgExpr σ Str)
    (p : Prog σ) : Prog σ :=
  if enabled lvl .LOG_ERROR_F then
    let r := e p
    { r.2 with sink := logErrorF t c r.1 r.2.sink }
  else p

/-- Source `LOG_WARN(msg)` (debug.h 128-134). -/
def LOG_WARN {σ : Type} (lvl : Int) (t : Target) (c : Clock) (msg : ArgExpr σ Str)
    (p : Prog σ) : Prog σ :=
  if enabled lvl .LOG_WARN then
    let r := msg p
    { r.2 with sink := logWarn t c r.1 r.2.sink }
  else p

/-- Source `LOG_WARN_F(fmt, ...)` (debug.h 128-134). -/
def LOG_WARN_F {σ : Type} (lvl : Int) (t : Target) (c : Clock) (e : ArgExpr σ Str)
    (p : Prog σ) : Prog σ :=
  if enabled lvl .LOG_WARN_F then
    let r := e p
    { r.2 with sink := logWarnF t c r.1 r.2.sink }
  else p

/-- Source `LOG_INFO(msg)` (debug.h 136-142). -/
def LOG_INFO {σ : Type} (lvl : Int) (t : Target) (c : Clock) (msg : ArgExpr σ Str)
    (p : Prog σ) : Prog σ :=
  if enabled lvl .LOG_INFO then
    let r := msg p
    { r.2 with sink := logInfo t c r.1 r.2.sink }
  else p

/-- Source `LOG_INFO_F(fmt, ...)` (debug.h 136-142). -/
def LOG_INFO_F {σ : Type} (lvl : Int) (t : Target) (c : Clock) (e : ArgExpr σ Str)
    (p : Prog σ) : Prog σ :=
  if enabled lvl .LOG_INFO_F then
    let r := e p
    { r.2 with sink := logInfoF t c r.1 r.2.sink }
  else p

/-- Source `LOG_DEBUG(msg)` (debug.h 144-154). -/
def LOG_DEBUG {σ : Type} (lvl : Int) (t : Target) (c : Clock) (msg : ArgExpr σ Str)
    (p : Prog σ) : Prog σ :=
  if enabled lvl .LOG_DEBUG then
    let r := msg p
    { r.2 with sink := logDebug t c r.1 r.2.sink }
  else p

/-- Source `LOG_DEBUG_F(fmt, ...)` (debug.h 144-154). -/
def LOG_DEBUG_F {σ : Type} (lvl : Int) (t : Target) (c : Clock) (e : ArgExpr σ Str)
    (p : Prog σ) : Prog σ :=
  if enabled lvl .LOG_DEBUG_F then
    let r := e p
    { r.2 with sink := logDebugF t c r.1 r.2.sink }
  else p

/-- Source `LOG_HEX(prefix, data, len)` (debug.h 144-154); `args` evaluates the three
arguments, in whatever order the compiler picks. -/
def LOG_HEX {σ : Type} (lvl : Int) (t : Target) (c : Clock)
    (args : ArgExpr σ (Str × Option (Nat → Byte) × Nat)) (p : Prog σ) : Prog σ :=
  if enabled lvl .LOG_HEX then
    let r := args p
    { r.2 with sink := logHex t c r.1.1 r.1.2.1 r.1.2.2 r.2.sink }
  else p

/-- Source `DEBUG_ONLY(code)` (debug.h 144-154): `do { code } while(0)` runs the block
and leaves the loop at the first test of the constant condition. -/
def DEBUG_ONLY {σ : Type} (lvl : Int) (code : Prog σ → Prog σ) (p : Prog σ) : Prog σ :=
  if enabled lvl .DEBUG_ONLY then code p else p

/-- Source `LOG_TRACE(msg)` (debug.h 156-164). -/
def LOG_TRACE {σ : Type} (lvl : Int) (t : Target) (c : Clock) (msg : ArgExpr σ Str)
    (p : Prog σ) : Prog σ :=
  if enabled lvl .LOG_TRACE then
    let r := msg p
    { r.2 with sink := logTrace t c r.1 r.2.sink }
  else p

/-- Source `LOG_TRACE_F(fmt, ...)` (debug.h 156-164). -/
def LOG_TRACE_F {σ : Type} (lvl : Int) (t : Target) (c : Clock) (e : ArgExpr σ Str)
    (p : Prog σ) : Prog σ :=
  if enabled lvl .LOG_TRACE_F then
    let r := e p
    { r.2 with sink := logTraceF t c r.1 r.2.sink }
  else p

/-- Source `TRACE_ONLY(code)` (debug.h 156-164). -/
def TRACE_ONLY {σ : Type} (lvl : Int) (code : Prog σ → Prog σ) (p : Prog σ) : Prog σ :=
  if enabled lvl .TRACE_ONLY then code p else p

/-! ## Uniform access to the five severities -/

/-- The plain operation of a severity. -/
def logAt : Severity → Target → Clock → Str → Str → Str
  | .ERROR => logError
  | .WARN => logWarn
  | .INFO => logInfo
  | .DEBUG => logDebug
  | .TRACE => logTrace

/-- The formatted operation of a severity. -/
def logAtF : Severity → Target → Clock → Str → Str → Str
  | .ERROR => logErrorF
  | .WARN => logWarnF
  | .INFO => logInfoF
  | .DEBUG => logDebugF
  | .TRACE => logTraceF

/-- The plain macro `LOG_<S>` of a severity. -/
def callAt {σ : Type} : Severity → Int → Target → Clock → ArgExpr σ Str → Prog σ → Prog σ
  | .ERROR => LOG_ERROR
  | .WARN => LOG_WARN
  | .INFO => LOG_INFO
  | .DEBUG => LOG_DEBUG
  | .TRACE => LOG_TRACE

/-- The formatted macro `LOG_<S>_F` of a severity. -/
def callAtF {σ : Type} : Severity → Int → Target → Clock → ArgExpr σ Str → Prog σ → Prog σ
  | .ERROR => LOG_ERROR_F
  | .WARN => LOG_WARN_F
  | .INFO => LOG_INFO_F
  | .DEBUG => LOG_DEBUG_F
  | .TRACE => LOG_TRACE_F

/-! ## Definitions that follow the specification's words -/

/-- The level tag the specification lists for a severity: one of `ERROR`,
`WARN `, `INFO `, `DEBUG`, `TRACE`. -/
def specTag : Severity → Str
  | .ERROR => "ERROR".toList
  | .WARN => "WARN ".toList
  | .INFO => "INFO ".toList
  | .DEBUG => "DEBUG".toList
  | .TRACE => "TRACE".toList

/-- The specification's line format `[<timestamp>] [<LEVEL>] <message>`. -/
def specLine (stamp tag msg : Str) : Str :=
  "[".toList ++ stamp ++ "] [".toList ++ tag ++ "] ".toList ++ msg

/-- A lowercase hexadecimal digit. -/
def specHexDigit (d : Nat) : Char := "0123456789abcdef".toList.getD d '?'

/-- A byte as exactly two lowercase hexadecimal digits, zero-padded. -/
def specHexByte (b : Byte) : Str := [specHexDigit (b.val / 16), specHexDigit (b.val % 16)]

/-- A decimal digit. -/
def specDigit (d : Nat) : Char := "0123456789".toList.getD d '?'

/-- A value below 100 as two zero-padded decimal digits. -/
def specTwoDigits (v : Nat) : Str := [specDigit (v / 10), specDigit (v % 10)]

/-- A value below 1000 as three zero-padded decimal digits. -/
def specThreeDigits (v : Nat) : Str :=
  [specDigit (v / 100), specDigit (v / 10 % 10), specDigit (v % 10)]

/-- The threshold clamped to the nearest defined level, `clamp(T, 0, 5)`. -/
def specClamp (T : Int) : Int := max 0 (min T 5)

/-- The bytes `b[0..n-1]` of a buffer. -/
def bufferBytes (data : Nat → Byte) (n : Nat) : List Byte := (List.range n).map data

/-- Each byte, in order, as two lowercase hexadecimal digits and one space. -/
def specHexBody : List Byte → Str
  | [] => []
  | b :: rest => specHexByte b ++ " ".toList ++ specHexBody rest

/-- The hex dump message: the prefix, ` [`, the byte count in decimal,
` bytes]: `, and the rendered bytes. -/
def specHexMessage (pfx : Str) (bytes : List Byte) : Str :=
  pfx ++ " [".toList ++ Nat.toDigits 10 bytes.length ++ " bytes]: ".toList ++ specHexBody bytes

/-! ## Sample inputs -/

/-- A clock reading: 12:34:56.789 local time, 1234 ms after boot. -/
def sampleClock : Clock :=
  { millis := 1234, epochMillis := 1700000000789, tm_hour := 12, tm_min := 34, tm_sec := 56 }

/-- A message argument with a side effect: it increments the caller's counter
and yields the text `x` (as in `LOG_INFO(next())`). -/
def bumpArg : ArgExpr Nat Str := fun q => ("x".toList, { q with mem := q.mem + 1 })

/-- Hex dump arguments with a side effect on the caller's counter. -/
def bumpHexArgs : ArgExpr Nat (Str × Option (Nat → Byte) × Nat) :=
  fun q => (("buf".toList, some (fun i => [(0x0A : Byte), 0xFF].getD i 0), 2),
    { q with mem := q.mem + 1 })

/-- A code block that increments the caller's counter. -/
def bumpBlock : Prog Nat → Prog Nat := fun q => { q with mem := q.mem + 1 }

/-- The start state of the samples: counter 0, nothing written. -/
def emptyProg : Prog Nat := { mem := 0, sink := [] }

/-- The two-byte buffer `{0x0A, 0xFF}`, as the bytes found behind a pointer. -/
def sampleBuffer : Nat → Byte := fun i => [(0x0A : Byte), 0xFF].getD i 0

/-- A clock reading 999 ms before the epoch; `to_time_t` truncates it to
second 0, which is 00:00:00 in UTC. -/
def preEpochClock : Clock :=
  { millis := 0, epochMillis := -999, tm_hour := 0, tm_min := 0, tm_sec := 0 }

/-- A hex dump label with a terminator in the middle. -/
def nulLabel : Str := ['p', NUL, 'q']

/-- An expanded text with a terminator in the middle, as produced by
`LOG_ERROR_F("a%cb", 0)`. -/
def nulText : Str := ['a', NUL, 'b']

/-! # Theorems -/

/-! ## Basic facts -/

theorem cstr_idem (s : Str) : cstr (cstr s) = cstr s := by
  unfold cstr
  exact List.takeWhile_idem

theorem cstr_eq_self_of_not_mem (s : Str) (h : NUL ∉ s) : cstr s = s := by
  unfold cstr
  rw [List.takeWhile_eq_self_iff]
  intro x hx
  have : x ≠ NUL := fun hn => h (hn ▸ hx)
  simpa using this

theorem NUL_not_mem_cstr (s : Str) : NUL ∉ cstr s := by
  unfold cstr
  intro h
  have := List.mem_takeWhile_imp h
  simp at this

theorem length_cstr_le (s : Str) : (cstr s).length ≤ s.length := by
  unfold cstr
  exact (List.takeWhile_sublist _).length_le

theorem eol_ne_nil (t : Target) : eol t ≠ [] := by
  cases t <;> decide

/-- The bracketed level argument each severity passes to `printLine`. -/
theorem logAt_eq_printLine (S : Severity) (t : Target) (c : Clock) (m sink : Str) :
    logAt S t c m sink = printLine t c ("[".toList ++ specTag S ++ "]".toList) m sink := by
  cases S <;> rfl

theorem logAtF_eq_logAt (S : Severity) (t : Target) (c : Clock) (e sink : Str) :
    logAtF S t c e sink = logAt S t c (formatBuffer e) sink := by
  cases S <;> rfl

theorem cstr_bracket_tag (S : Severity) :
    cstr ("[".toList ++ specTag S ++ "]".toList) = "[".toList ++ specTag S ++ "]".toList := by
  cases S <;> decide

/-- Every call of `printLine` appends one line body and one terminator. -/
theorem printLine_appends (t : Target) (c : Clock) (level m sink : Str) :
    ∃ body, printLine t c level m sink = sink ++ body ++ eol t := by
  cases t
  · exact ⟨"[".toList ++ cstr (getCurrentTime .arduino c) ++ "] ".toList ++ cstr level
      ++ " ".toList ++ cstr m, by simp [printLine]⟩
  · exact ⟨getCurrentTime .host c ++ " ".toList ++ cstr level ++ " ".toList ++ m,
      by simp [printLine]⟩

theorem printLine_ne (t : Target) (c : Clock) (level m sink : Str) :
    printLine t c level m sink ≠ sink := by
  obtain ⟨body, h⟩ := printLine_appends t c level m sink
  rw [h]
  intro hh
  have hlen := congrArg List.length hh
  have hpos : 0 < (eol t).length := List.length_pos.mpr (eol_ne_nil t)
  rw [List.length_append, List.length_append] at hlen
  omega

theorem ppThreshold_of_range (T : Int) (hlo : -(2 : Int) ^ 63 < T) (hhi : T < (2 : Int) ^ 64) :
    (ppThreshold T).value = T ∧ ((ppThreshold T).unsignedp = true → (2 : Int) ^ 63 ≤ T) := by
  have h4 : T.natAbs < 2 ^ 64 := by omega
  have h2 : T.natAbs % 2 ^ 64 = T.natAbs := Nat.mod_eq_of_lt h4
  unfold ppThreshold ppNegate ppLiteral
  rcases Int.lt_or_le T 0 with h | h
  · have h3 : ¬ (2 ^ 63 ≤ T.natAbs) := by omega
    simp only [h, if_true, h2, h4, h3, decide_False, Bool.false_eq_true, if_false,
      Int.ofNat_eq_coe]
    constructor
    · split <;> omega
    · intro hh; exact absurd hh (by simp)
  · have h0 : ¬ T < 0 := by omega
    simp only [h0, if_false, h2, h4, if_true, decide_eq_true_eq, Int.ofNat_eq_coe]
    constructor
    · omega
    · intro hh; omega

theorem ppLiteral_small (k : Nat) (hk : k < 2 ^ 63) :
    (ppLiteral k).value = k ∧ (ppLiteral k).unsignedp = false := by
  have h4 : k < 2 ^ 64 := by omega
  have h2 : k % 2 ^ 64 = k := Nat.mod_eq_of_lt h4
  have h3 : ¬ (2 ^ 63 ≤ k) := by omega
  simp only [ppLiteral, h4, if_true, h2, h3, decide_False, Int.ofNat_eq_coe, and_self]

/-- Inside the 64-bit range the preprocessor comparison is the comparison of
the integers. -/
theorem ppGe_threshold (T : Int) (k : Nat) (hk : k < 2 ^ 63) (hlo : -(2 : Int) ^ 63 < T)
    (hhi : T < (2 : Int) ^ 64) :
    ppGe (ppThreshold T) (ppLiteral k) = decide ((k : Int) ≤ T) := by
  obtain ⟨hv, hu⟩ := ppThreshold_of_range T hlo hhi
  obtain ⟨kv, ku⟩ := ppLiteral_small k hk
  unfold ppGe
  rw [hv, kv, ku]
  cases hb : (ppThreshold T).unsignedp
  · simp
  · have := hu hb
    simp only [Bool.or_false, if_true, ge_iff_le, decide_eq_decide]
    omega

theorem ppGt_threshold (T : Int) (k : Nat) (hk : k < 2 ^ 63) (hlo : -(2 : Int) ^ 63 < T)
    (hhi : T < (2 : Int) ^ 64) :
    ppGt (ppThreshold T) (ppLiteral k) = decide ((k : Int) < T) := by
  obtain ⟨hv, hu⟩ := ppThreshold_of_range T hlo hhi
  obtain ⟨kv, ku⟩ := ppLiteral_small k hk
  unfold ppGt
  rw [hv, kv, ku]
  cases hb : (ppThreshold T).unsignedp
  · simp
  · have := hu hb
    simp only [Bool.or_false, if_true, gt_iff_lt, decide_eq_decide]
    omega

/-- Inside the 64-bit range an entry point is enabled exactly from its gate
level on. -/
theorem enabled_of_range (T : Int) (ep : EntryPoint) (hlo : -(2 : Int) ^ 63 < T)
    (hhi : T < (2 : Int) ^ 64) :
    enabled T ep = decide ((ep.gateLevel : Int) ≤ T) := by
  unfold enabled
  exact ppGe_threshold T _ (by cases ep <;> decide) hlo hhi

theorem small_in_range (T : Int) (h0 : 0 ≤ T) (h5 : T ≤ 5) :
    -(2 : Int) ^ 63 < T ∧ T < (2 : Int) ^ 64 := by
  constructor <;> omega

theorem callAt_eq {σ : Type} (S : Severity) (T : Int) (t : Target) (c : Clock)
    (msg : ArgExpr σ Str) (p : Prog σ) (hlo : -(2 : Int) ^ 63 < T) (hhi : T < (2 : Int) ^ 64) :
    callAt S T t c msg p =
      if S.level ≤ T then { (msg p).2 with sink := logAt S t c (msg p).1 (msg p).2.sink }
      else p := by
  cases S <;>
    simp [callAt, logAt, LOG_ERROR, LOG_WARN, LOG_INFO, LOG_DEBUG, LOG_TRACE,
      enabled_of_range T _ hlo hhi, EntryPoint.gateLevel, Severity.level, DEBUG_LEVEL_ERROR,
      DEBUG_LEVEL_WARN, DEBUG_LEVEL_INFO, DEBUG_LEVEL_DEBUG, DEBUG_LEVEL_TRACE]

theorem callAtF_eq {σ : Type} (S : Severity) (T : Int) (t : Target) (c : Clock)
    (e : ArgExpr σ Str) (p : Prog σ) (hlo : -(2 : Int) ^ 63 < T) (hhi : T < (2 : Int) ^ 64) :
    callAtF S T t c e p =
      if S.level ≤ T then { (e p).2 with sink := logAtF S t c (e p).1 (e p).2.sink }
      else p := by
  cases S <;>
    simp [callAtF, logAtF, LOG_ERROR_F, LOG_WARN_F, LOG_INFO_F, LOG_DEBUG_F, LOG_TRACE_F,
      enabled_of_range T _ hlo hhi, EntryPoint.gateLevel, Severity.level, DEBUG_LEVEL_ERROR,
      DEBUG_LEVEL_WARN, DEBUG_LEVEL_INFO, DEBUG_LEVEL_DEBUG, DEBUG_LEVEL_TRACE]

theorem LOG_HEX_eq {σ : Type} (T : Int) (t : Target) (c : Clock)
    (args : ArgExpr σ (Str × Option (Nat → Byte) × Nat)) (p : Prog σ) (hlo : -(2 : Int) ^ 63 < T) (hhi : T < (2 : Int) ^ 64) :
    LOG_HEX T t c args p =
      if 4 ≤ T then
        { (args p).2 with
          sink := logHex t c (args p).1.1 (args p).1.2.1 (args p).1.2.2 (args p).2.sink }
      else p := by
  simp [LOG_HEX, enabled_of_range T _ hlo hhi, EntryPoint.gateLevel]

theorem DEBUG_ONLY_eq {σ : Type} (T : Int) (code : Prog σ → Prog σ) (p : Prog σ)
    (hlo : -(2 : Int) ^ 63 < T) (hhi : T < (2 : Int) ^ 64) :
    DEBUG_ONLY T code p = (if 4 ≤ T then code p else p) := by
  simp [DEBUG_ONLY, enabled_of_range T _ hlo hhi, EntryPoint.gateLevel]

theorem TRACE_ONLY_eq {σ : Type} (T : Int) (code : Prog σ → Prog σ) (p : Prog σ)
    (hlo : -(2 : Int) ^ 63 < T) (hhi : T < (2 : Int) ^ 64) :
    TRACE_ONLY T code p = (if 5 ≤ T then code p else p) := by
  simp [TRACE_ONLY, enabled_of_range T _ hlo hhi, EntryPoint.gateLevel]

/-! ## The level gate -/

/-- C1: a call through the severity-S macro, plain or formatted, writes a line
to the sink if and only if S <= T, for every threshold T in 0..5 and more
generally for every T strictly between -2^63 and 2^64, where the `#if`
arithmetic is exact; when S <= T the sink grows by one line body and one terminator, and
otherwise the call leaves the program state as it was. At the default
threshold (`DEBUG_LEVEL` unset, which is 0) and at 0 no severity writes; at 2
`LOG_ERROR` and `LOG_WARN` write their line and `LOG_INFO` writes nothing. -/
theorem level_gate_writes_iff {σ : Type} (T : Int) (S : Severity) (t : Target) (c : Clock)
    (m e : Str) (p : Prog σ) (hlo : -(2 : Int) ^ 63 < T) (hhi : T < (2 : Int) ^ 64) :
    ((callAt S T t c (pureArg m) p).sink ≠ p.sink ↔ S.level ≤ T) ∧
    ((callAtF S T t c (pureArg e) p).sink ≠ p.sink ↔ S.level ≤ T) ∧
    (S.level ≤ T →
      (∃ body, (callAt S T t c (pureArg m) p).sink = p.sink ++ body ++ eol t) ∧
      (∃ body, (callAtF S T t c (pureArg e) p).sink = p.sink ++ body ++ eol t)) ∧
    (¬ S.level ≤ T →
      callAt S T t c (pureArg m) p = p ∧ callAtF S T t c (pureArg e) p = p) ∧
    DEBUG_LEVEL none = 0 ∧
    callAt S (DEBUG_LEVEL none) t c (pureArg m) p = p ∧
    callAtF S (DEBUG_LEVEL none) t c (pureArg e) p = p ∧
    callAt S 0 t c (pureArg m) p = p ∧
    callAtF S 0 t c (pureArg e) p = p ∧
    (LOG_ERROR 2 t c (pureArg m) p).sink = logError t c m p.sink ∧
    (LOG_WARN 2 t c (pureArg m) p).sink = logWarn t c m p.sink ∧
    logError t c m p.sink ≠ p.sink ∧
    logWarn t c m p.sink ≠ p.sink ∧
    LOG_INFO 2 t c (pureArg m) p = p := by
  have hlvl : ¬ S.level ≤ 0 := by
    cases S <;> simp [Severity.level, DEBUG_LEVEL_ERROR, DEBUG_LEVEL_WARN, DEBUG_LEVEL_INFO,
      DEBUG_LEVEL_DEBUG, DEBUG_LEVEL_TRACE]
  have h0 := small_in_range 0 (by decide) (by decide)
  have h2 := small_in_range 2 (by decide) (by decide)
  refine ⟨?_, ?_, ?_, ?_, rfl, ?_, ?_, ?_, ?_, ?_, ?_, ?_, ?_, ?_⟩
  · rw [callAt_eq _ _ _ _ _ _ hlo hhi]
    by_cases h : S.level ≤ T
    · simp only [h, if_true, iff_true, pureArg]
      rw [logAt_eq_printLine]
      exact printLine_ne _ _ _ _ _
    · simp [h]
  · rw [callAtF_eq _ _ _ _ _ _ hlo hhi]
    by_cases h : S.level ≤ T
    · simp only [h, if_true, iff_true, pureArg]
      rw [logAtF_eq_logAt, logAt_eq_printLine]
      exact printLine_ne _ _ _ _ _
    · simp [h]
  · intro h
    constructor
    · rw [callAt_eq _ _ _ _ _ _ hlo hhi]
      simp only [h, if_true, pureArg]
      rw [logAt_eq_printLine]
      exact printLine_appends _ _ _ _ _
    · rw [callAtF_eq _ _ _ _ _ _ hlo hhi]
      simp only [h, if_true, pureArg]
      rw [logAtF_eq_logAt, logAt_eq_printLine]
      exact printLine_appends _ _ _ _ _
  · intro h
    rw [callAt_eq _ _ _ _ _ _ hlo hhi, callAtF_eq _ _ _ _ _ _ hlo hhi]
    simp [h]
  · show callAt S 0 t c (pureArg m) p = p
    rw [callAt_eq _ _ _ _ _ _ h0.1 h0.2]
    simp [hlvl]
  · show callAtF S 0 t c (pureArg e) p = p
    rw [callAtF_eq _ _ _ _ _ _ h0.1 h0.2]
    simp [hlvl]
  · rw [callAt_eq _ _ _ _ _ _ h0.1 h0.2]
    simp [hlvl]
  · rw [callAtF_eq _ _ _ _ _ _ h0.1 h0.2]
    simp [hlvl]
  · simp [LOG_ERROR, enabled_of_range 2 _ h2.1 h2.2, EntryPoint.gateLevel, pureArg]
  · simp [LOG_WARN, enabled_of_range 2 _ h2.1 h2.2, EntryPoint.gateLevel, pureArg]
  · exact printLine_ne _ _ _ _ _
  · exact printLine_ne _ _ _ _ _
  · simp [LOG_INFO, enabled_of_range 2 _ h2.1 h2.2, EntryPoint.gateLevel]

/-- Worked instance at threshold 2, severity WARN, on the
host with the sample clock. -/
theorem level_gate_writes_iff_witness :
    (callAt .WARN 2 .host sampleClock (pureArg "y".toList) emptyProg).sink ≠ emptyProg.sink ∧
    ∃ body, (callAt .WARN 2 .host sampleClock (pureArg "y".toList) emptyProg).sink
      = emptyProg.sink ++ body ++ eol .host :=
  have h := level_gate_writes_iff 2 .WARN .host sampleClock "y".toList "y".toList emptyProg
    (by decide) (by decide)
  ⟨h.1.mpr (by decide), (h.2.2.1 (by decide)).1⟩

/-- C7: for a threshold T (0..5, and any T strictly between -2^63 and 2^64)
and a severity S > T, the severity-S macros (plain and formatted), and `LOG_HEX`
when T < 4, do not evaluate their argument expressions: whatever the
arguments would do, the program state after the call is the state before it,
memory and sink alike. -/
theorem disabled_call_evaluates_nothing {σ : Type} (T : Int) (S : Severity)
    (h : T < S.level) (t : Target) (c : Clock) (arg : ArgExpr σ Str)
    (hexArgs : ArgExpr σ (Str × Option (Nat → Byte) × Nat)) (p : Prog σ)
    (hlo : -(2 : Int) ^ 63 < T) (hhi : T < (2 : Int) ^ 64) :
    callAt S T t c arg p = p ∧ callAtF S T t c arg p = p ∧
    (T < 4 → LOG_HEX T t c hexArgs p = p) := by
  have h' : ¬ S.level ≤ T := by omega
  refine ⟨?_, ?_, ?_⟩
  · rw [callAt_eq _ _ _ _ _ _ hlo hhi]; simp [h']
  · rw [callAtF_eq _ _ _ _ _ _ hlo hhi]; simp [h']
  · intro h4
    have : ¬ (4 : Int) ≤ T := by omega
    rw [LOG_HEX_eq _ _ _ _ _ hlo hhi]; simp [this]

/-- Worked instance: at threshold 2 the INFO
macros and `LOG_HEX` leave the counter that their argument would increment at
0 and write nothing, while at threshold 3 `LOG_INFO` does run the argument. -/
theorem disabled_call_evaluates_nothing_witness :
    (2 : Int) < Severity.INFO.level ∧
    (callAt .INFO 2 .host sampleClock bumpArg emptyProg).mem = 0 ∧
    (callAt .INFO 2 .host sampleClock bumpArg emptyProg).sink = [] ∧
    (callAtF .INFO 2 .host sampleClock bumpArg emptyProg).mem = 0 ∧
    (LOG_HEX 2 .host sampleClock bumpHexArgs emptyProg).mem = 0 ∧
    (LOG_INFO 3 .host sampleClock bumpArg emptyProg).mem = 1 :=
  have h := disabled_call_evaluates_nothing 2 .INFO (by decide) .host sampleClock bumpArg
    bumpHexArgs emptyProg (by decide) (by decide)
  ⟨by decide, by rw [h.1]; rfl, by rw [h.1]; rfl, by rw [h.2.1]; rfl,
    by rw [h.2.2 (by decide)]; rfl, by decide⟩

/-- C8, as the code has it: for every integer threshold T strictly between
-2^63 and 2^64, also outside 0..5, every entry point is enabled exactly when
it is for clamp(T, 0, 5), and so every macro behaves as at the clamped
threshold: T < 0 behaves as NONE (0) and T > 5 as TRACE (5). The same holds
for whether `DebugLogger` is compiled. -/
theorem threshold_behaves_as_clamped {σ : Type} (T : Int) (ep : EntryPoint) (S : Severity)
    (hlo : -(2 : Int) ^ 63 < T) (hhi : T < (2 : Int) ^ 64) :
    enabled T ep = enabled (specClamp T) ep ∧
    (T < 0 → specClamp T = DEBUG_LEVEL_NONE ∧ enabled T ep = enabled 0 ep) ∧
    (5 < T → specClamp T = DEBUG_LEVEL_TRACE ∧ enabled T ep = enabled 5 ep) ∧
    loggerCompiled T = loggerCompiled (specClamp T) ∧
    callAt (σ := σ) S T = callAt S (specClamp T) ∧
    callAtF (σ := σ) S T = callAtF S (specClamp T) ∧
    LOG_HEX (σ := σ) T = LOG_HEX (specClamp T) ∧
    DEBUG_ONLY (σ := σ) T = DEBUG_ONLY (specClamp T) ∧
    TRACE_ONLY (σ := σ) T = TRACE_ONLY (specClamp T) := by
  have hc0 : 0 ≤ specClamp T := by simp only [specClamp]; omega
  have hc5 : specClamp T ≤ 5 := by simp only [specClamp]; omega
  have hc := small_in_range (specClamp T) hc0 hc5
  have key : ∀ ep, enabled T ep = enabled (specClamp T) ep := by
    intro ep
    rw [enabled_of_range T ep hlo hhi, enabled_of_range (specClamp T) ep hc.1 hc.2]
    cases ep <;> simp only [EntryPoint.gateLevel, specClamp, decide_eq_decide] <;> omega
  refine ⟨key ep, ?_, ?_, ?_, ?_, ?_, ?_, ?_, ?_⟩
  · intro h
    have hz : specClamp T = 0 := by simp only [specClamp]; omega
    exact ⟨hz, by rw [key ep, hz]⟩
  · intro h
    have hz : specClamp T = 5 := by simp only [specClamp]; omega
    exact ⟨hz, by rw [key ep, hz]⟩
  · simp only [loggerCompiled]
    rw [ppGt_threshold T 0 (by decide) hlo hhi,
      ppGt_threshold (specClamp T) 0 (by decide) hc.1 hc.2]
    simp only [specClamp, decide_eq_decide]
    omega
  · funext t c msg p
    cases S <;> simp only [callAt, LOG_ERROR, LOG_WARN, LOG_INFO, LOG_DEBUG, LOG_TRACE, key]
  · funext t c msg p
    cases S <;>
      simp only [callAtF, LOG_ERROR_F, LOG_WARN_F, LOG_INFO_F, LOG_DEBUG_F, LOG_TRACE_F, key]
  · funext t c args p
    simp only [LOG_HEX, key]
  · funext code p
    simp only [DEBUG_ONLY, key]
  · funext code p
    simp only [TRACE_ONLY, key]

/-- Worked instance: threshold -3 enables what 0
enables (nothing) and threshold 9 enables what 5 enables (everything). -/
theorem threshold_behaves_as_clamped_witness :
    enabled (-3) .LOG_ERROR = enabled 0 .LOG_ERROR ∧ enabled (-3) .LOG_ERROR = false ∧
    enabled 9 .TRACE_ONLY = enabled 5 .TRACE_ONLY ∧ enabled 9 .TRACE_ONLY = true :=
  ⟨((threshold_behaves_as_clamped (σ := Nat) (-3) .LOG_ERROR .ERROR (by decide)
      (by decide)).2.1 (by decide)).2,
    by decide,
    ((threshold_behaves_as_clamped (σ := Nat) 9 .TRACE_ONLY .TRACE (by decide)
      (by decide)).2.2.1 (by decide)).2,
    by decide⟩

/-- C8 as stated fails outside the 64-bit range of the `#if` arithmetic: the
threshold 2^64 is above 5 but is cut to 0, so nothing is enabled, where the
clamped threshold 5 enables everything; the threshold -2^63 is below 0 but its
literal is unsigned, so everything is enabled, where the clamped threshold 0
enables nothing. -/
theorem threshold_clamp_fails_beyond_64_bits :
    (5 : Int) < 2 ^ 64 ∧ specClamp (2 ^ 64) = 5 ∧
    enabled (2 ^ 64) .LOG_ERROR = false ∧ enabled (specClamp (2 ^ 64)) .LOG_ERROR = true ∧
    enabled (2 ^ 64) .LOG_ERROR ≠ enabled 5 .LOG_ERROR ∧
    loggerCompiled (2 ^ 64) = false ∧ loggerCompiled (specClamp (2 ^ 64)) = true ∧
    enabled (2 ^ 64 + 3) .LOG_INFO = true ∧ enabled (2 ^ 64 + 3) .LOG_DEBUG = false ∧
    (-(2 ^ 63) : Int) < 0 ∧ specClamp (-(2 ^ 63)) = 0 ∧
    enabled (-(2 ^ 63)) .TRACE_ONLY = true ∧
    enabled (specClamp (-(2 ^ 63))) .TRACE_ONLY = false ∧
    enabled (-(2 ^ 63)) .TRACE_ONLY ≠ enabled 0 .TRACE_ONLY ∧
    loggerCompiled (-(2 ^ 63)) = true ∧ loggerCompiled (specClamp (-(2 ^ 63))) = false := by
  decide

/-- C9: for a threshold T (0..5, and any T strictly between -2^63 and 2^64)
`DEBUG_ONLY(c)` runs the block c exactly once when T >= 4 and
otherwise runs nothing and leaves the state unchanged; `TRACE_ONLY(c)` runs c
exactly once when T >= 5 and otherwise nothing. So whenever `TRACE_ONLY` runs
its block `DEBUG_ONLY` does too, and at T = 4 `DEBUG_ONLY` runs the block
while `TRACE_ONLY` does not. With a block that counts its runs the counter
goes up by one, or stays. -/
theorem only_blocks_run_once_or_never {σ : Type} (T : Int) (code : Prog σ → Prog σ)
    (p : Prog σ) (q : Prog Nat) (hlo : -(2 : Int) ^ 63 < T) (hhi : T < (2 : Int) ^ 64) :
    DEBUG_ONLY T code p = (if 4 ≤ T then code p else p) ∧
    TRACE_ONLY T code p = (if 5 ≤ T then code p else p) ∧
    (TRACE_ONLY T code p = code p ∨ TRACE_ONLY T code p = p) ∧
    (enabled T .TRACE_ONLY = true → enabled T .DEBUG_ONLY = true) ∧
    (5 ≤ T → TRACE_ONLY T code p = code p ∧ DEBUG_ONLY T code p = code p) ∧
    DEBUG_ONLY 4 code p = code p ∧
    TRACE_ONLY 4 code p = p ∧
    (DEBUG_ONLY T bumpBlock q).mem = (if 4 ≤ T then q.mem + 1 else q.mem) ∧
    (TRACE_ONLY T bumpBlock q).mem = (if 5 ≤ T then q.mem + 1 else q.mem) := by
  have hd : ∀ (τ : Type) (f : Prog τ → Prog τ) (r : Prog τ),
      DEBUG_ONLY T f r = (if 4 ≤ T then f r else r) := by
    intro τ f r; exact DEBUG_ONLY_eq T f r hlo hhi
  have ht : ∀ (τ : Type) (f : Prog τ → Prog τ) (r : Prog τ),
      TRACE_ONLY T f r = (if 5 ≤ T then f r else r) := by
    intro τ f r; exact TRACE_ONLY_eq T f r hlo hhi
  refine ⟨hd _ _ _, ht _ _ _, ?_, ?_, ?_, ?_, ?_, ?_, ?_⟩
  · rw [ht]; by_cases h : (5 : Int) ≤ T <;> simp [h]
  · rw [enabled_of_range T _ hlo hhi, enabled_of_range T _ hlo hhi]
    simp only [EntryPoint.gateLevel, decide_eq_true_eq]
    omega
  · intro h
    have h4 : (4 : Int) ≤ T := by omega
    rw [ht, hd]; simp [h, h4]
  · rw [DEBUG_ONLY_eq 4 code p (by decide) (by decide)]; simp
  · rw [TRACE_ONLY_eq 4 code p (by decide) (by decide)]; simp
  · rw [hd]; by_cases h : (4 : Int) ≤ T <;> simp [h, bumpBlock]
  · rw [ht]; by_cases h : (5 : Int) ≤ T <;> simp [h, bumpBlock]

/-- Worked instance at thresholds 5 and 4 with the
counting block. -/
theorem only_blocks_run_once_or_never_witness :
    (TRACE_ONLY 5 bumpBlock emptyProg).mem = 1 ∧ (DEBUG_ONLY 5 bumpBlock emptyProg).mem = 1 ∧
    (DEBUG_ONLY 4 bumpBlock emptyProg).mem = 1 ∧ (TRACE_ONLY 4 bumpBlock emptyProg).mem = 0 :=
  have h5 := only_blocks_run_once_or_never 5 bumpBlock emptyProg emptyProg (by decide)
    (by decide)
  have h4 := only_blocks_run_once_or_never 4 bumpBlock emptyProg emptyProg (by decide)
    (by decide)
  ⟨by rw [(h5.2.2.2.2.1 (by decide)).1]; rfl, by rw [(h5.2.2.2.2.1 (by decide)).2]; rfl,
    by rw [h4.2.2.2.2.2.1]; rfl, by rw [h4.2.2.2.2.2.2.1]; rfl⟩

/-! ## The line writer -/

theorem cstr_getCurrentTime_arduino (c : Clock) :
    cstr (getCurrentTime .arduino c) = getCurrentTime .arduino c := by
  simp only [getCurrentTime]
  exact cstr_idem _

/-- The host line of a severity, written out. -/
theorem logAt_host (S : Severity) (c : Clock) (m sink : Str) :
    logAt S .host c m sink
      = sink ++ getCurrentTime .host c ++ " [".toList ++ specTag S ++ "] ".toList ++ m
          ++ eol .host := by
  rw [logAt_eq_printLine]
  simp only [printLine, cstr_bracket_tag]
  have h1 : " [".toList = " ".toList ++ "[".toList := rfl
  have h2 : "] ".toList = "]".toList ++ " ".toList := rfl
  rw [h1, h2]
  simp only [List.append_assoc]

/-- The embedded line of a severity, written out. -/
theorem logAt_arduino (S : Severity) (c : Clock) (m sink : Str) :
    logAt S .arduino c m sink
      = sink ++ "[".toList ++ getCurrentTime .arduino c ++ "] [".toList ++ specTag S
          ++ "] ".toList ++ cstr m ++ eol .arduino := by
  rw [logAt_eq_printLine]
  simp only [printLine, cstr_bracket_tag, cstr_getCurrentTime_arduino]
  have h1 : "] [".toList = "] ".toList ++ "[".toList := rfl
  have h2 : "] ".toList = "]".toList ++ " ".toList := rfl
  rw [h1, h2]
  simp only [List.append_assoc]

theorem specTag_length (S : Severity) : (specTag S).length = 5 := by
  cases S <;> rfl

/-- C3: each severity operation emits its own fixed-width tag: the bracketed
tag in the emitted line is 5 characters long, is one of `ERROR`, `WARN `,
`INFO `, `DEBUG`, `TRACE`, and is the one of the operation called (`logError`
emits `ERROR`, .., `logTrace` emits `TRACE`), on the host and on the embedded
target; a formatted variant emits the line of its plain counterpart, with the
same tag. -/
theorem severity_tag_fixed_width (S : Severity) (t : Target) (c : Clock) (m e sink : Str) :
    (specTag S).length = 5 ∧
    specTag S ∈ ["ERROR".toList, "WARN ".toList, "INFO ".toList, "DEBUG".toList,
      "TRACE".toList] ∧
    logAt S .host c m sink
      = sink ++ getCurrentTime .host c ++ " [".toList ++ specTag S ++ "] ".toList ++ m
          ++ eol .host ∧
    logAt S .arduino c m sink
      = sink ++ "[".toList ++ getCurrentTime .arduino c ++ "] [".toList ++ specTag S
          ++ "] ".toList ++ cstr m ++ eol .arduino ∧
    logAtF S t c e sink = logAt S t c (formatBuffer e) sink ∧
    logError t c m sink = printLine t c ("[".toList ++ "ERROR".toList ++ "]".toList) m sink ∧
    logWarn t c m sink = printLine t c ("[".toList ++ "WARN ".toList ++ "]".toList) m sink ∧
    logInfo t c m sink = printLine t c ("[".toList ++ "INFO ".toList ++ "]".toList) m sink ∧
    logDebug t c m sink = printLine t c ("[".toList ++ "DEBUG".toList ++ "]".toList) m sink ∧
    logTrace t c m sink = printLine t c ("[".toList ++ "TRACE".toList ++ "]".toList) m sink ∧
    logErrorF t c e sink = logError t c (formatBuffer e) sink ∧
    logWarnF t c e sink = logWarn t c (formatBuffer e) sink ∧
    logInfoF t c e sink = logInfo t c (formatBuffer e) sink ∧
    logDebugF t c e sink = logDebug t c (formatBuffer e) sink ∧
    logTraceF t c e sink = logTrace t c (formatBuffer e) sink :=
  ⟨specTag_length S, by cases S <;> decide, logAt_host S c m sink, logAt_arduino S c m sink,
    logAtF_eq_logAt S t c e sink, rfl, rfl, rfl, rfl, rfl, rfl, rfl, rfl, rfl, rfl⟩

/-- C2, evaluated on the code: on the embedded target the line is
`[<timestamp>] [<LEVEL>] <message>` (the message as a C string) and a line
terminator, but on the host the timestamp is written without square brackets,
so the host line is never the specified one; for `logError("x")` at
12:34:56.789 the host writes `12:34:56.789 [ERROR] x`. -/
theorem host_line_lacks_timestamp_brackets (S : Severity) (c : Clock) (m sink : Str) :
    logAt S .arduino c m sink
      = sink ++ specLine (getCurrentTime .arduino c) (specTag S) (cstr m) ++ eol .arduino ∧
    logAt S .host c m sink
      = sink ++ getCurrentTime .host c ++ " [".toList ++ specTag S ++ "] ".toList ++ m
          ++ eol .host ∧
    logAt S .host c m sink
      ≠ sink ++ specLine (getCurrentTime .host c) (specTag S) m ++ eol .host ∧
    logError .host sampleClock "x".toList [] = "12:34:56.789 [ERROR] x\n".toList ∧
    [] ++ specLine (getCurrentTime .host sampleClock) (specTag .ERROR) "x".toList ++ eol .host
      = "[12:34:56.789] [ERROR] x\n".toList := by
  refine ⟨?_, logAt_host S c m sink, ?_, by decide, by decide⟩
  · rw [logAt_arduino]
    simp only [specLine, List.append_assoc]
  · rw [logAt_host]
    intro h
    have hl := congrArg List.length h
    simp only [specLine, List.length_append] at hl
    have a1 : " [".toList.length = 2 := rfl
    have a2 : "] ".toList.length = 2 := rfl
    have a3 : "[".toList.length = 1 := rfl
    have a4 : "] [".toList.length = 3 := rfl
    omega

/-! ## The hex dump -/

theorem padLeft_zero (fill : Char) (s : Str) : padLeft 0 fill s = s := by
  simp [padLeft]

set_option maxRecDepth 100000 in
/-- What one loop iteration inserts for a byte: its two lowercase hexadecimal
digits. -/
theorem hex_byte_text : ∀ b : Byte,
    padLeft 2 '0' (signedText true 32 ((b.val : Nat) : Int)) = specHexByte b := by
  decide

/-- The loop appends the rendering of the bytes at `i, i+1, .., i+k-1`. -/
theorem hexLoop_buf (data : Nat → Byte) (k : Nat) :
    ∀ (i : Nat) (ss : OStream),
      (hexLoop data k i ss).buf
        = ss.buf ++ specHexBody ((List.range k).map (fun j => data (i + j))) := by
  induction k with
  | zero => intro i ss; simp [hexLoop, specHexBody]
  | succ k ih =>
    intro i ss
    rw [hexLoop, ih, List.range_succ_eq_map, List.map_cons, List.map_map, specHexBody]
    have hf : ((fun j => data (i + j)) ∘ Nat.succ) = (fun j => data (i + 1 + j)) := by
      funext j
      simp only [Function.comp, Nat.succ_eq_add_one]
      congr 1
      omega
    rw [hf]
    simp only [OStream.putStr, OStream.putSigned, OStream.setfill, OStream.setw,
      OStream.setHex, padLeft_zero, hex_byte_text, Nat.add_zero, List.append_assoc]

theorem specHexBody_length (bytes : List Byte) : (specHexBody bytes).length = 3 * bytes.length := by
  induction bytes with
  | nil => rfl
  | cons b rest ih =>
    simp only [specHexBody, List.length_append, ih, List.length_cons, specHexByte]
    have : " ".toList.length = 1 := rfl
    simp only [this, List.length_nil]
    omega

/-- The message built by `logHex` is the specified one. -/
theorem hexMessage_eq (pfx : Str) (data : Nat → Byte) (n : Nat) :
    hexMessage pfx data n = specHexMessage pfx (bufferBytes data n) := by
  simp only [hexMessage, hexLoop_buf, specHexMessage, bufferBytes, OStream.putStr,
    OStream.putUnsigned, OStream.init, padLeft_zero, unsignedText, List.nil_append,
    List.length_map, List.length_range, Nat.zero_add, List.append_assoc]
  rfl

theorem specHexMessage_length (pfx : Str) (bytes : List Byte) :
    (specHexMessage pfx bytes).length
      = pfx.length + (Nat.toDigits 10 bytes.length).length + 11 + 3 * bytes.length := by
  simp only [specHexMessage, List.length_append, specHexBody_length]
  have a1 : " [".toList.length = 2 := rfl
  have a2 : " bytes]: ".toList.length = 9 := rfl
  omega

theorem digitChar_ne_NUL : ∀ d, d < 10 → Nat.digitChar d ≠ NUL := by
  decide

theorem NUL_not_mem_toDigitsCore (fuel : Nat) :
    ∀ (n : Nat) (ds : Str), NUL ∉ ds → NUL ∉ Nat.toDigitsCore 10 fuel n ds := by
  induction fuel with
  | zero => intro n ds h; simpa [Nat.toDigitsCore] using h
  | succ fuel ih =>
    intro n ds h
    have hd : Nat.digitChar (n % 10) ≠ NUL := digitChar_ne_NUL _ (Nat.mod_lt _ (by decide))
    have hcons : NUL ∉ Nat.digitChar (n % 10) :: ds := by
      intro hm
      rcases List.mem_cons.mp hm with h1 | h1
      · exact hd h1.symm
      · exact h h1
    rw [Nat.toDigitsCore]
    split
    · exact hcons
    · exact ih _ _ hcons

/-- A decimal rendering holds no terminator. -/
theorem NUL_not_mem_toDigits (n : Nat) : NUL ∉ Nat.toDigits 10 n :=
  NUL_not_mem_toDigitsCore _ _ _ (List.not_mem_nil _)

set_option maxRecDepth 100000 in
theorem NUL_not_mem_specHexByte : ∀ b : Byte, NUL ∉ specHexByte b := by
  decide

theorem NUL_not_mem_specHexBody (bytes : List Byte) : NUL ∉ specHexBody bytes := by
  induction bytes with
  | nil => simp [specHexBody]
  | cons b rest ih =>
    simp only [specHexBody, List.mem_append, not_or]
    exact ⟨⟨NUL_not_mem_specHexByte b, by decide⟩, ih⟩

/-- A hex dump message with a terminator-free label reads back whole as a C
string. -/
theorem cstr_specHexMessage (pfx : Str) (bytes : List Byte) (hp : NUL ∉ pfx) :
    cstr (specHexMessage pfx bytes) = specHexMessage pfx bytes := by
  apply cstr_eq_self_of_not_mem
  simp only [specHexMessage, List.mem_append, not_or]
  exact ⟨⟨⟨⟨hp, by decide⟩, NUL_not_mem_toDigits _⟩, by decide⟩, NUL_not_mem_specHexBody _⟩

/-- C4: for a threshold T (0..5, and any T strictly between -2^63 and 2^64)
`LOG_HEX(prefix, data, len)` writes a line if and only if T >= 4 and
data is non-null and len > 0, and then it writes one line body and one
terminator; with a null pointer or a zero length `logHex` returns the sink as
it was, whatever the other arguments, and it has no other result through which
an error could be signalled. -/
theorem hex_dump_gate {σ : Type} (T : Int) (t : Target) (c : Clock) (pfx : Str)
    (data : Option (Nat → Byte)) (len : Nat) (p : Prog σ)
    (hlo : -(2 : Int) ^ 63 < T) (hhi : T < (2 : Int) ^ 64) :
    ((LOG_HEX T t c (pureArg (pfx, data, len)) p).sink ≠ p.sink
      ↔ (4 ≤ T ∧ data.isSome = true ∧ 0 < len)) ∧
    ((4 ≤ T ∧ data.isSome = true ∧ 0 < len) →
      ∃ body, (LOG_HEX T t c (pureArg (pfx, data, len)) p).sink = p.sink ++ body ++ eol t) ∧
    (¬ (4 ≤ T ∧ data.isSome = true ∧ 0 < len) →
      LOG_HEX T t c (pureArg (pfx, data, len)) p = p) ∧
    logHex t c pfx none len p.sink = p.sink ∧
    logHex t c pfx data 0 p.sink = p.sink ∧
    logHex t c pfx none 0 p.sink = p.sink ∧
    (LOG_HEX T t c (pureArg (pfx, none, 0)) p).sink = p.sink ∧
    (LOG_HEX T t c (pureArg (pfx, data, 0)) p).sink = p.sink := by
  have hnull : ∀ l, logHex t c pfx none l p.sink = p.sink := fun l => rfl
  have hzero : ∀ d, logHex t c pfx d 0 p.sink = p.sink := by
    intro d; cases d <;> simp [logHex]
  have hsome : ∀ d l, 0 < l →
      logHex t c pfx (some d) l p.sink = logDebug t c (hexMessage pfx d l) p.sink := by
    intro d l hl
    have : l ≠ 0 := by omega
    simp [logHex, this]
  refine ⟨?_, ?_, ?_, hnull len, hzero data, hnull 0, ?_, ?_⟩
  · rw [LOG_HEX_eq _ _ _ _ _ hlo hhi]
    by_cases hT : (4 : Int) ≤ T
    · simp only [hT, if_true, pureArg, true_and]
      cases data with
      | none => simp [hnull]
      | some d =>
        by_cases hl : 0 < len
        · simp only [Option.isSome_some, hl, and_self, iff_true, hsome d len hl]
          exact printLine_ne _ _ _ _ _
        · have : len = 0 := by omega
          subst this
          simp [hzero]
    · simp [hT]
  · rintro ⟨hT, hd, hl⟩
    rw [LOG_HEX_eq _ _ _ _ _ hlo hhi]
    simp only [hT, if_true, pureArg]
    cases data with
    | none => simp at hd
    | some d =>
      rw [hsome d len hl]
      exact printLine_appends _ _ _ _ _
  · intro h
    rw [LOG_HEX_eq _ _ _ _ _ hlo hhi]
    by_cases hT : (4 : Int) ≤ T
    · simp only [hT, if_true, pureArg]
      cases data with
      | none => rfl
      | some d =>
        have : len = 0 := by
          by_contra hne
          exact h ⟨hT, rfl, by omega⟩
        subst this
        simp [hzero]
    · simp [hT]
  · rw [LOG_HEX_eq _ _ _ _ _ hlo hhi]
    by_cases hT : (4 : Int) ≤ T <;> simp [hT, pureArg, hnull]
  · rw [LOG_HEX_eq _ _ _ _ _ hlo hhi]
    by_cases hT : (4 : Int) ≤ T <;> simp [hT, pureArg, hzero]

/-- Worked instance: at threshold 4 the two-byte sample buffer is
dumped, as one line. -/
theorem hex_dump_gate_witness :
    (LOG_HEX 4 .host sampleClock (pureArg ("buf".toList, some sampleBuffer, 2)) emptyProg).sink
      ≠ emptyProg.sink ∧
    ∃ body,
      (LOG_HEX 4 .host sampleClock (pureArg ("buf".toList, some sampleBuffer, 2)) emptyProg).sink
        = emptyProg.sink ++ body ++ eol .host :=
  have h := hex_dump_gate 4 .host sampleClock "buf".toList (some sampleBuffer) 2 emptyProg
    (by decide) (by decide)
  ⟨h.1.mpr ⟨by decide, rfl, by decide⟩, h.2.1 ⟨by decide, rfl, by decide⟩⟩

/-- C5, as the code has it: for a non-null buffer of n > 0 bytes `logHex`
builds the message prefix, ` [`, n in decimal, ` bytes]: `, then each byte in
buffer order as two lowercase hexadecimal digits and a space, |p| + |decimal n|
+ 11 + 3n code units long, and emits exactly one line, tagged DEBUG, for it.
On the host the line carries that message for every prefix; on the embedded
target it does so for every prefix without a terminator code unit (in general
it carries the message read as a C string). -/
theorem hex_dump_line (t : Target) (c : Clock) (pfx : Str) (data : Nat → Byte) (n : Nat)
    (sink : Str) (hn : 0 < n) :
    logHex t c pfx (some data) n sink
      = logDebug t c (specHexMessage pfx (bufferBytes data n)) sink ∧
    hexMessage pfx data n = specHexMessage pfx (bufferBytes data n) ∧
    specHexMessage pfx (bufferBytes data n)
      = pfx ++ " [".toList ++ Nat.toDigits 10 n ++ " bytes]: ".toList
          ++ specHexBody (bufferBytes data n) ∧
    (specHexMessage pfx (bufferBytes data n)).length
      = pfx.length + (Nat.toDigits 10 n).length + 11 + 3 * n ∧
    (bufferBytes data n).length = n ∧
    logHex .host c pfx (some data) n sink
      = sink ++ getCurrentTime .host c ++ " [DEBUG] ".toList
          ++ specHexMessage pfx (bufferBytes data n) ++ "\n".toList ∧
    (NUL ∉ pfx →
      logHex .arduino c pfx (some data) n sink
        = sink ++ "[".toList ++ getCurrentTime .arduino c ++ "] [DEBUG] ".toList
            ++ specHexMessage pfx (bufferBytes data n) ++ "\r\n".toList) ∧
    logHex .arduino c pfx (some data) n sink
      = sink ++ "[".toList ++ getCurrentTime .arduino c ++ "] [DEBUG] ".toList
          ++ cstr (specHexMessage pfx (bufferBytes data n)) ++ "\r\n".toList := by
  have hne : n ≠ 0 := by omega
  have hlen : (bufferBytes data n).length = n := by simp [bufferBytes]
  have hcall : ∀ t, logHex t c pfx (some data) n sink
      = logDebug t c (specHexMessage pfx (bufferBytes data n)) sink := by
    intro t
    simp only [logHex, hne, if_false, hexMessage_eq]
  have hard : logHex .arduino c pfx (some data) n sink
      = sink ++ "[".toList ++ getCurrentTime .arduino c ++ "] [DEBUG] ".toList
          ++ cstr (specHexMessage pfx (bufferBytes data n)) ++ "\r\n".toList := by
    rw [hcall]
    have := logAt_arduino .DEBUG c (specHexMessage pfx (bufferBytes data n)) sink
    simp only [logAt] at this
    rw [this]
    have h1 : "] [DEBUG] ".toList = "] [".toList ++ specTag .DEBUG ++ "] ".toList := rfl
    rw [h1]
    simp only [eol, List.append_assoc]
  refine ⟨hcall t, hexMessage_eq pfx data n, ?_, ?_, hlen, ?_, ?_, hard⟩
  · simp only [specHexMessage, hlen]
  · rw [specHexMessage_length, hlen]
  · rw [hcall]
    have := logAt_host .DEBUG c (specHexMessage pfx (bufferBytes data n)) sink
    simp only [logAt] at this
    rw [this]
    have h1 : " [DEBUG] ".toList = " [".toList ++ specTag .DEBUG ++ "] ".toList := rfl
    rw [h1]
    simp only [eol, List.append_assoc]
  · intro hp
    rw [hard, cstr_specHexMessage pfx _ hp]

/-- Worked instance: `hex("buf", {0x0A, 0xFF}, 2)` makes the
message `buf [2 bytes]: 0a ff ` and the host and embedded lines with it; a
count of 16 is written `16`, in decimal. -/
theorem hex_dump_line_witness :
    (0 < 2) ∧ NUL ∉ "buf".toList ∧
    hexMessage "p".toList sampleBuffer 16
      = "p [16 bytes]: 0a ff 00 00 00 00 00 00 00 00 00 00 00 00 00 00 ".toList ∧
    specHexMessage "buf".toList (bufferBytes sampleBuffer 2) = "buf [2 bytes]: 0a ff ".toList ∧
    logHex .host sampleClock "buf".toList (some sampleBuffer) 2 []
      = logDebug .host sampleClock "buf [2 bytes]: 0a ff ".toList [] ∧
    logHex .host sampleClock "buf".toList (some sampleBuffer) 2 []
      = "12:34:56.789 [DEBUG] buf [2 bytes]: 0a ff \n".toList ∧
    logHex .arduino sampleClock "buf".toList (some sampleBuffer) 2 []
      = "[1234 ms] [DEBUG] buf [2 bytes]: 0a ff \r\n".toList :=
  have h := hex_dump_line .host sampleClock "buf".toList sampleBuffer 2 [] (by decide)
  have hm : specHexMessage "buf".toList (bufferBytes sampleBuffer 2)
      = "buf [2 bytes]: 0a ff ".toList := by decide
  ⟨by decide, by decide, by decide, hm, hm ▸ h.1, by rw [h.2.2.2.2.2.1, hm]; decide,
    by rw [h.2.2.2.2.2.2.1 (by decide), hm]; decide⟩

/-- C5 as stated fails on the embedded target for a prefix with a terminator
inside: for the prefix `p`, NUL, `q` the line is `[1234 ms] [DEBUG] p`, cut
at the terminator, and not the line with the whole hex dump message. -/
theorem hex_dump_prefix_cut_at_terminator :
    logHex .arduino sampleClock nulLabel (some sampleBuffer) 2 []
      = "[1234 ms] [DEBUG] p\r\n".toList ∧
    logHex .arduino sampleClock nulLabel (some sampleBuffer) 2 []
      ≠ [] ++ "[".toList ++ getCurrentTime .arduino sampleClock ++ "] [DEBUG] ".toList
          ++ specHexMessage nulLabel (bufferBytes sampleBuffer 2) ++ "\r\n".toList ∧
    logHex .host sampleClock nulLabel (some sampleBuffer) 2 []
      = [] ++ getCurrentTime .host sampleClock ++ " [DEBUG] ".toList
          ++ specHexMessage nulLabel (bufferBytes sampleBuffer 2) ++ "\n".toList := by
  decide

/-! ## Formatted variants -/

theorem cstr_append_NUL (s : Str) : cstr (s ++ [NUL]) = cstr s := by
  induction s with
  | nil => simp [cstr]
  | cons a s ih =>
    simp only [cstr, List.cons_append] at ih ⊢
    by_cases h : (a != NUL) = true
    · simp only [List.takeWhile_cons, h, if_true, ih]
    · simp only [List.takeWhile_cons, h, if_false]
      rfl

/-- The message of a formatted call: the expanded text cut at 255 code units
and read back as a C string. -/
theorem formatBuffer_eq (e : Str) : formatBuffer e = cstr (e.take 255) := by
  simp only [formatBuffer, snprintf]
  exact cstr_append_NUL _

theorem formatBuffer_length_le (e : Str) : (formatBuffer e).length ≤ 255 := by
  rw [formatBuffer_eq]
  have h1 := length_cstr_le (e.take 255)
  have h2 : (e.take 255).length ≤ 255 := by
    rw [List.length_take]; omega
  omega

/-- The buffer `snprintf` fills ends in a terminator, so reading it back as a
C string stays inside what was written, which is inside the 256 units. -/
theorem formatBuffer_read_in_bounds (e : Str) :
    snprintf 256 e = e.take 255 ++ [NUL] ∧
    NUL ∈ snprintf 256 e ∧
    cstrReadExtent (snprintf 256 e) ≤ (snprintf 256 e).length ∧
    (snprintf 256 e).length ≤ 256 := by
  have hbuf : snprintf 256 e = e.take 255 ++ [NUL] := rfl
  have h1 := length_cstr_le (e.take 255)
  refine ⟨hbuf, ?_, ?_, ?_⟩
  · rw [hbuf]; simp
  · rw [cstrReadExtent, hbuf, cstr_append_NUL, List.length_append, List.length_singleton]
    omega
  · rw [hbuf, List.length_append, List.length_take, List.length_singleton]
    omega

/-- C6, as the code has it: for a formatted call whose template expands to a
text e without a terminator code unit, the logged message is the prefix of e
of length min(|e|, 255); when |e| <= 255 the call is identical to the plain
operation on e, and when e exceeds the bound the message is cut to the bound.
Nothing beyond the buffer is read or written: `snprintf` fills at most the 256
units of the buffer, the last unit it writes is the terminator, and reading
the message back touches only units up to that terminator. For every e the
message is the C string read from the first 255 units of e, at most 255 units
long. -/
theorem formatted_message_bounded (S : Severity) (t : Target) (c : Clock) (e sink : Str)
    (h : NUL ∉ e) :
    formatBuffer e = e.take (min e.length 255) ∧
    (formatBuffer e).length = min e.length 255 ∧
    logAtF S t c e sink = logAt S t c (e.take (min e.length 255)) sink ∧
    (e.length ≤ 255 → formatBuffer e = e ∧ logAtF S t c e sink = logAt S t c e sink) ∧
    (255 < e.length → (formatBuffer e).length = 255 ∧ formatBuffer e = e.take 255) ∧
    (snprintf 256 e).length ≤ 256 ∧
    snprintf 256 e = e.take 255 ++ [NUL] ∧
    NUL ∈ snprintf 256 e ∧
    cstrReadExtent (snprintf 256 e) ≤ (snprintf 256 e).length ∧
    cstrReadExtent (snprintf 256 e) = min e.length 255 + 1 ∧
    (∀ e' : Str, formatBuffer e' = cstr (e'.take 255) ∧ (formatBuffer e').length ≤ 255 ∧
      NUL ∈ snprintf 256 e' ∧ cstrReadExtent (snprintf 256 e') ≤ (snprintf 256 e').length ∧
      (snprintf 256 e').length ≤ 256) := by
  have hmin : e.take (min e.length 255) = e.take 255 := by
    by_cases hl : e.length ≤ 255
    · rw [Nat.min_eq_left hl, List.take_of_length_le hl, List.take_of_length_le (le_refl _)]
    · rw [Nat.min_eq_right (by omega)]
  have htake : NUL ∉ e.take 255 := fun hm => h (List.mem_of_mem_take hm)
  have hfb : formatBuffer e = e.take (min e.length 255) := by
    rw [formatBuffer_eq, cstr_eq_self_of_not_mem _ htake, hmin]
  have hlen : (formatBuffer e).length = min e.length 255 := by
    rw [hfb, List.length_take]
    omega
  have hrd := formatBuffer_read_in_bounds e
  refine ⟨hfb, hlen, ?_, ?_, ?_, hrd.2.2.2, hrd.1, hrd.2.1, hrd.2.2.1, ?_, ?_⟩
  · rw [logAtF_eq_logAt, hfb]
  · intro hl
    have : formatBuffer e = e := by
      rw [hfb, Nat.min_eq_left hl, List.take_of_length_le (le_refl _)]
    exact ⟨this, by rw [logAtF_eq_logAt, this]⟩
  · intro hl
    exact ⟨by rw [hlen]; omega, by rw [hfb, hmin]⟩
  · have : cstrReadExtent (snprintf 256 e) = (formatBuffer e).length + 1 := rfl
    rw [this, hlen]
  · intro e'
    have hrd' := formatBuffer_read_in_bounds e'
    exact ⟨formatBuffer_eq e', formatBuffer_length_le e', hrd'.2.1, hrd'.2.2.1, hrd'.2.2.2⟩

/-- Worked instance: a text of 300 units is logged as
its first 255, read back through 256 buffer units, and a short text unchanged. -/
theorem formatted_message_bounded_witness :
    NUL ∉ List.replicate 300 'a' ∧
    formatBuffer (List.replicate 300 'a') = List.replicate 255 'a' ∧
    cstrReadExtent (snprintf 256 (List.replicate 300 'a')) = 256 ∧
    logErrorF .host sampleClock "disk full".toList []
      = logError .host sampleClock "disk full".toList [] :=
  have h1 : NUL ∉ List.replicate 300 'a' := by
    simp only [List.mem_replicate, not_and]
    intro _
    decide
  have h2 : NUL ∉ "disk full".toList := by decide
  have hbig := formatted_message_bounded .ERROR .host sampleClock (List.replicate 300 'a') [] h1
  ⟨h1,
    (hbig.2.2.2.2.1 (by rw [List.length_replicate]; decide)).2.trans
      ((List.take_replicate 'a' 255 300).trans
        (congrArg (fun k => List.replicate k 'a') (by decide : min 255 300 = 255))),
    hbig.2.2.2.2.2.2.2.2.2.1.trans (by rw [List.length_replicate]; decide),
    ((formatted_message_bounded .ERROR .host sampleClock "disk full".toList [] h2).2.2.2.1
      (by decide)).2⟩

/-- C6 as stated fails on an expanded text with a terminator inside: for the
3 units `a`, NUL, `b` the logged message is `a`, not the prefix of length
min(3, 255), and the formatted call differs from the plain one. -/
theorem formatted_message_stops_at_terminator :
    nulText.length = 3 ∧
    formatBuffer nulText = ['a'] ∧
    formatBuffer nulText ≠ nulText.take (min nulText.length 255) ∧
    logErrorF .host sampleClock nulText [] ≠ logError .host sampleClock nulText [] := by
  decide

/-! ## The host timestamp -/

theorem two_digit_text : ∀ v, v < 100 → strftime2 v = specTwoDigits v := by
  decide

theorem signedText_dec_ofNat (bits v : Nat) :
    signedText false bits (v : Int) = Nat.toDigits 10 v := by
  have : ¬ ((v : Int) < 0) := by omega
  simp [signedText, this]

set_option maxRecDepth 100000 in
theorem three_digit_text : ∀ v, v < 1000 →
    padLeft 3 '0' (Nat.toDigits 10 v) = specThreeDigits v := by
  decide

/-- C10, as the code has it: for a clock instant at or after the epoch (and
`localtime` fields in their ranges) the host timestamp is HH:MM:SS.mmm: hours,
minutes and seconds as two zero-padded decimal digits each, a dot, and
(milliseconds since the epoch) mod 1000, which is below 1000, as three
zero-padded decimal digits; it is 12 characters long. -/
theorem host_timestamp_format (c : Clock) (hh : c.tm_hour ≤ 23) (hm : c.tm_min ≤ 59)
    (hs : c.tm_sec ≤ 60) (he : 0 ≤ c.epochMillis) :
    getCurrentTime .host c
      = specTwoDigits c.tm_hour ++ ":".toList ++ specTwoDigits c.tm_min ++ ":".toList
          ++ specTwoDigits c.tm_sec ++ ".".toList
          ++ specThreeDigits (c.epochMillis % 1000).toNat ∧
    (c.epochMillis % 1000).toNat < 1000 ∧
    (getCurrentTime .host c).length = 12 := by
  obtain ⟨n, hn⟩ := Int.eq_ofNat_of_zero_le he
  have hms : c.epochMillis.tmod 1000 = ((n % 1000 : Nat) : Int) := by
    rw [hn]; rfl
  have hmod : (c.epochMillis % 1000).toNat = n % 1000 := by
    rw [hn]; omega
  have hlt : n % 1000 < 1000 := Nat.mod_lt _ (by decide)
  have hfmt : getCurrentTime .host c
      = specTwoDigits c.tm_hour ++ ":".toList ++ specTwoDigits c.tm_min ++ ":".toList
          ++ specTwoDigits c.tm_sec ++ ".".toList
          ++ specThreeDigits (c.epochMillis % 1000).toNat := by
    simp only [getCurrentTime, OStream.putSigned, OStream.setw, OStream.setfill,
      OStream.putStr, OStream.putTime, OStream.init, padLeft_zero, hms, signedText_dec_ofNat,
      three_digit_text _ hlt, two_digit_text _ (show c.tm_hour < 100 by omega),
      two_digit_text _ (show c.tm_min < 100 by omega),
      two_digit_text _ (show c.tm_sec < 100 by omega), hmod, List.nil_append,
      List.append_assoc]
  refine ⟨hfmt, by rw [hmod]; exact hlt, ?_⟩
  rw [hfmt]
  rfl

/-- Worked instance at the sample clock. -/
theorem host_timestamp_format_witness :
    getCurrentTime .host sampleClock = "12:34:56.789".toList ∧
    (getCurrentTime .host sampleClock).length = 12 :=
  have h := host_timestamp_format sampleClock (by decide) (by decide) (by decide) (by decide)
  ⟨h.1.trans (by decide), h.2.2⟩

/-- C10 as stated fails before the epoch: 999 ms before it the millisecond
count is -999 (C++ `%` truncates towards zero), which is written with its
sign, so the timestamp is `00:00:00.-999`, 13 characters long. -/
theorem host_timestamp_before_epoch :
    preEpochClock.epochMillis.tmod 1000 = -999 ∧
    getCurrentTime .host preEpochClock = "00:00:00.-999".toList ∧
    (getCurrentTime .host preEpochClock).length = 13 ∧
    (getCurrentTime .host preEpochClock).length ≠ 12 := by
  decide

end DebugLog
